import Mathlib

/-
Verification of the catalight repository's composition-sweep planner,
gas-mixture layer and calibration/reduction pipeline.

Shallow embedding conventions:
* Python floats are modelled as exact rationals (ℚ); float round-off is not
  modelled, so equality tests in the source (`sum(comp_list) == 100`) become
  exact rational equality.
* A Python list that is mutated in place (slice assignment) is modelled by
  returning the caller-visible contents of the list object after the call.
* A raised exception is modelled as `some e : Option PyErr` returned next to
  the state reached at the moment of the raise (mutations performed before the
  raise persist, as they do in Python).
* Hardware (Alicat MFC serial commands) is modelled as a command log on the
  `Gas_System` state; each logged command records the value of the `is_busy`
  flag at the moment the command was issued.
-/

/-- Python exception kinds that the embedded code can raise. -/
inductive PyErr where
  | attributeError
  | indexError
  | nameError
  deriving DecidableEq, Repr

namespace GasControl

/-- Embeds `Gas_System.check_comp_total` (gas_control.py lines 103-110).
The first component of the result is the caller-visible contents of the list
object after the call (the `comp_list[:] = ...` slice assignment mutates the
caller's object in place); on a normal return it is also the returned value.
The second component is the raised exception, if any. -/
def check_comp_total (comp_list : List ℚ) : List ℚ × Option PyErr :=
  let comp_list :=
    if comp_list.sum = 100 then comp_list.map (fun x => x / 100) else comp_list
  if comp_list.sum ≠ 1 ∧ comp_list.sum ≠ 0 then
    (comp_list, some PyErr.attributeError)
  else
    (comp_list, none)

/-- State of one mass-flow controller: current gas identity and the last flow
setpoint written to it. Hardware read-backs are pass-through and are modelled
by the setpoint. -/
structure MFC where
  gas : String
  flow : ℚ
  deriving DecidableEq, Repr

/-- Gas selection of the flow meter on channel E: either a plain species or a
custom mix slot number. -/
inductive EGas where
  | species (name : String)
  | mixSlot (n : Nat)
  deriving DecidableEq, Repr

/-- One `create_mix` call recorded on the flow meter. -/
structure MixCall where
  mix_no : Nat
  mixName : String
  gases : List (String × ℚ)
  deriving DecidableEq, Repr

/-- Hardware commands issued to the channel bank. -/
inductive Cmd where
  | setGas (chan : Char) (gas : String)
  | setFlowRate (chan : Char) (v : ℚ)
  | getStatus (chan : Char)
  | createMix (slot : Nat)
  | selectE (g : EGas)
  deriving DecidableEq, Repr

/-- Embeds the mutable state of a `Gas_System` object (gas_control.py).
`log` records every hardware command together with the value of `is_busy`
at the moment the command was issued. -/
structure Gas_System where
  mfc_A : MFC
  mfc_B : MFC
  mfc_C : MFC
  mfc_D : MFC
  mfc_E_gas : EGas
  mixes_written : List MixCall
  is_busy : Bool
  log : List (Cmd × Bool)
  deriving DecidableEq, Repr

/-- Appends a hardware command to the log, recording the busy flag at issue
time. -/
def issue (s : Gas_System) (c : Cmd) : Gas_System :=
  { s with log := s.log ++ [(c, s.is_busy)] }

/-- Python's `dict` insert: a duplicate key keeps its original position but its
value is overwritten by the later one. -/
def pyDictInsert (d : List (String × ℚ)) (k : String) (v : ℚ) :
    List (String × ℚ) :=
  if d.any (fun p => p.1 = k) then
    d.map (fun p => if p.1 = k then (k, v) else p)
  else
    d ++ [(k, v)]

/-- Python's `dict(pairs)`: left-to-right insertion with overwrite. -/
def pyDict (pairs : List (String × ℚ)) : List (String × ℚ) :=
  pairs.foldl (fun d p => pyDictInsert d p.1 p.2) []

/-- Embeds `Gas_System.set_gasE` (gas_control.py lines 77-101).
Takes the gas identities read back from channels A-D from the state. The
spin-wait on `is_busy` is a no-op in the sequential semantics whenever the flag
is clear at entry, which is the situation every theorem below assumes.
Returns (state, caller-visible comp_list contents, raised exception). -/
def set_gasE (s : Gas_System) (comp_list : List ℚ) :
    Gas_System × List ℚ × Option PyErr :=
  match check_comp_total comp_list with
  | (cl, some e) => (s, cl, some e)
  | (cl, none) =>
    let s := { s with is_busy := true }
    let s := issue s (Cmd.getStatus 'A')
    let s := issue s (Cmd.getStatus 'B')
    let s := issue s (Cmd.getStatus 'C')
    let s := issue s (Cmd.getStatus 'D')
    let gas_list := [s.mfc_A.gas, s.mfc_B.gas, s.mfc_C.gas, s.mfc_D.gas]
    let percents := cl.map (fun x => x * 100)
    let gas_dict := pyDict (gas_list.zip percents)
    let gas_dict := gas_dict.filter (fun p => p.2 ≠ 0)
    if gas_dict.length > 1 then
      let s := issue s (Cmd.createMix 236)
      let s := { s with mixes_written :=
                   s.mixes_written ++ [⟨236, "output", gas_dict⟩] }
      let s := issue s (Cmd.selectE (EGas.mixSlot 236))
      let s := { s with mfc_E_gas := EGas.mixSlot 236 }
      ({ s with is_busy := false }, cl, none)
    else
      match gas_dict.head? with
      | some p =>
        let s := issue s (Cmd.selectE (EGas.species p.1))
        let s := { s with mfc_E_gas := EGas.species p.1 }
        ({ s with is_busy := false }, cl, none)
      | none => (s, cl, some PyErr.indexError)

/-- Issues a `set_flow_rate` command to channel A. -/
def cmd_set_flow_A (s : Gas_System) (v : ℚ) : Gas_System :=
  let s := issue s (Cmd.setFlowRate 'A' v)
  { s with mfc_A := { s.mfc_A with flow := v } }

/-- Issues a `set_flow_rate` command to channel B. -/
def cmd_set_flow_B (s : Gas_System) (v : ℚ) : Gas_System :=
  let s := issue s (Cmd.setFlowRate 'B' v)
  { s with mfc_B := { s.mfc_B with flow := v } }

/-- Issues a `set_flow_rate` command to channel C. -/
def cmd_set_flow_C (s : Gas_System) (v : ℚ) : Gas_System :=
  let s := issue s (Cmd.setFlowRate 'C' v)
  { s with mfc_C := { s.mfc_C with flow := v } }

/-- Issues a `set_flow_rate` command to channel D. -/
def cmd_set_flow_D (s : Gas_System) (v : ℚ) : Gas_System :=
  let s := issue s (Cmd.setFlowRate 'D' v)
  { s with mfc_D := { s.mfc_D with flow := v } }

/-- Issues a `set_gas` command to channel A. -/
def cmd_set_gas_A (s : Gas_System) (g : String) : Gas_System :=
  let s := issue s (Cmd.setGas 'A' g)
  { s with mfc_A := { s.mfc_A with gas := g } }

/-- Issues a `set_gas` command to channel B. -/
def cmd_set_gas_B (s : Gas_System) (g : String) : Gas_System :=
  let s := issue s (Cmd.setGas 'B' g)
  { s with mfc_B := { s.mfc_B with gas := g } }

/-- Issues a `set_gas` command to channel C. -/
def cmd_set_gas_C (s : Gas_System) (g : String) : Gas_System :=
  let s := issue s (Cmd.setGas 'C' g)
  { s with mfc_C := { s.mfc_C with gas := g } }

/-- Issues a `set_gas` command to channel D. -/
def cmd_set_gas_D (s : Gas_System) (g : String) : Gas_System :=
  let s := issue s (Cmd.setGas 'D' g)
  { s with mfc_D := { s.mfc_D with gas := g } }

/-- Embeds `Gas_System.set_flows` (gas_control.py lines 44-75): normalize the
composition, set the four flow setpoints, clear the flag, then call
`set_gasE`. Indexing `comp_list[i]` on a list with fewer than four elements
raises `IndexError`; the flow writes that precede the failing index are
issued first, as in the source. -/
def set_flows (s : Gas_System) (comp_list : List ℚ) (tot_flow : ℚ) :
    Gas_System × List ℚ × Option PyErr :=
  match check_comp_total comp_list with
  | (cl, some e) => (s, cl, some e)
  | (cl, none) =>
    let s := { s with is_busy := true }
    match cl.get? 0 with
    | none => (s, cl, some PyErr.indexError)
    | some c0 =>
    let s := cmd_set_flow_A s (c0 * tot_flow)
    match cl.get? 1 with
    | none => (s, cl, some PyErr.indexError)
    | some c1 =>
    let s := cmd_set_flow_B s (c1 * tot_flow)
    match cl.get? 2 with
    | none => (s, cl, some PyErr.indexError)
    | some c2 =>
    let s := cmd_set_flow_C s (c2 * tot_flow)
    match cl.get? 3 with
    | none => (s, cl, some PyErr.indexError)
    | some c3 =>
    let s := cmd_set_flow_D s (c3 * tot_flow)
    let s := { s with is_busy := false }
    set_gasE s cl

/-- Embeds `Gas_System.set_gasses` (gas_control.py lines 33-42). -/
def set_gasses (s : Gas_System) (gas_list : List String) :
    Gas_System × Option PyErr :=
  let s := { s with is_busy := true }
  match gas_list.get? 0 with
  | none => (s, some PyErr.indexError)
  | some g0 =>
  let s := cmd_set_gas_A s g0
  match gas_list.get? 1 with
  | none => (s, some PyErr.indexError)
  | some g1 =>
  let s := cmd_set_gas_B s g1
  match gas_list.get? 2 with
  | none => (s, some PyErr.indexError)
  | some g2 =>
  let s := cmd_set_gas_C s g2
  match gas_list.get? 3 with
  | none => (s, some PyErr.indexError)
  | some g3 =>
  let s := cmd_set_gas_D s g3
  ({ s with is_busy := false }, none)

/-- Step of `Gas_System.shut_down` for channel A: read the gas and set the
flow to 1 sccm for Ar/N2 carriers, 0 otherwise. -/
def shut_down_A (s : Gas_System) : Gas_System :=
  let s := issue s (Cmd.getStatus 'A')
  if s.mfc_A.gas = "Ar" ∨ s.mfc_A.gas = "N2" then cmd_set_flow_A s 1
  else cmd_set_flow_A s 0

/-- Step of `Gas_System.shut_down` for channel B. -/
def shut_down_B (s : Gas_System) : Gas_System :=
  let s := issue s (Cmd.getStatus 'B')
  if s.mfc_B.gas = "Ar" ∨ s.mfc_B.gas = "N2" then cmd_set_flow_B s 1
  else cmd_set_flow_B s 0

/-- Step of `Gas_System.shut_down` for channel C. -/
def shut_down_C (s : Gas_System) : Gas_System :=
  let s := issue s (Cmd.getStatus 'C')
  if s.mfc_C.gas = "Ar" ∨ s.mfc_C.gas = "N2" then cmd_set_flow_C s 1
  else cmd_set_flow_C s 0

/-- Step of `Gas_System.shut_down` for channel D. -/
def shut_down_D (s : Gas_System) : Gas_System :=
  let s := issue s (Cmd.getStatus 'D')
  if s.mfc_D.gas = "Ar" ∨ s.mfc_D.gas = "N2" then cmd_set_flow_D s 1
  else cmd_set_flow_D s 0

/-- Embeds `Gas_System.shut_down` (gas_control.py lines 168-180), with the
loop over the four controllers unrolled. -/
def shut_down (s : Gas_System) : Gas_System :=
  let s := { s with is_busy := true }
  let s := shut_down_A s
  let s := shut_down_B s
  let s := shut_down_C s
  let s := shut_down_D s
  { s with is_busy := false }

/-- Embeds `Gas_System.read_flows` (gas_control.py lines 149-166): reads the
status of all five channels under the busy flag and returns it. -/
def read_flows (s : Gas_System) : Gas_System × List (String × ℚ) :=
  let s := { s with is_busy := true }
  let s := issue s (Cmd.getStatus 'A')
  let s := issue s (Cmd.getStatus 'B')
  let s := issue s (Cmd.getStatus 'C')
  let s := issue s (Cmd.getStatus 'D')
  let s := issue s (Cmd.getStatus 'E')
  let out := [(s.mfc_A.gas, s.mfc_A.flow), (s.mfc_B.gas, s.mfc_B.flow),
              (s.mfc_C.gas, s.mfc_C.flow), (s.mfc_D.gas, s.mfc_D.flow)]
  ({ s with is_busy := false }, out)

/-- Concrete `Gas_System` state used by the concrete theorems: channels A-D
carry Ar, H2, Ar, Ar, everything idle. -/
def exampleSystem : Gas_System :=
  { mfc_A := ⟨"Ar", 0⟩, mfc_B := ⟨"H2", 0⟩, mfc_C := ⟨"Ar", 0⟩,
    mfc_D := ⟨"Ar", 0⟩, mfc_E_gas := EGas.species "Ar",
    mixes_written := [], is_busy := false, log := [] }

end GasControl

namespace CatalightGUI

/-- Embeds the experiment loop of `MainWindow.start_study` (catalight_GUI.py
lines 122-149) at the level of its control flow: each experiment's
`run_experiment()` either returns normally (`none`) or raises (`some e`), and
a raise propagates out of the loop. Returns the number of experiments started
and the propagated exception. -/
def run_expts : List (Option PyErr) → Nat × Option PyErr
  | [] => (0, none)
  | none :: rest =>
    let r := run_expts rest
    (r.1 + 1, r.2)
  | some e :: _ => (1, some e)

/-- Embeds `MainWindow.start_study`: run the experiments in order, then call
`self.shut_down()` once after the loop; an exception raised by an experiment
propagates out of `start_study` before that call. Returns (number of
experiments started, number of `shut_down` invocations, propagated
exception). -/
def start_study (runs : List (Option PyErr)) : Nat × Nat × Option PyErr :=
  match (run_expts runs).2 with
  | none => ((run_expts runs).1, 1, none)
  | some err => ((run_expts runs).1, 0, some err)

/-- Role selected in a composition-sweep grid row's combo box
(catalight_GUI.py line 373: `['-', 'Fixed', 'Fill', 'Ind. Variable',
'Multiple']`). -/
inductive Role where
  | dash
  | fixed
  | fill
  | indvar
  | multiple
  deriving DecidableEq, Repr

/-- One gas row of the composition-sweep grid (catalight_GUI.py lines
369-387). Field-to-widget-column mapping: `mult` is column 1 (Multiplier),
`start` is column 3 (Start; the same spin box supplies the constant of a
`Fixed` row), `stop` is column 4, `step` is column 5. All spin boxes are
`QDoubleSpinBox`es, modelled as ℚ. -/
structure CompRow where
  role : Role
  mult : ℚ
  start : ℚ
  stop : ℚ
  step : ℚ
  deriving DecidableEq, Repr

/-- Embeds `np.arange(start, stop, step)` for a positive step: the values
`start + i*step` for `0 ≤ i < ⌈(stop - start)/step⌉`. -/
def arange (start stop step : ℚ) : List ℚ :=
  (List.range (Int.toNat ⌈(stop - start) / step⌉)).map (fun i => start + i * step)

/-- Fraction vector of the `Ind. Variable` row (catalight_GUI.py lines
782-790): `np.arange(start, stop + 1, step) / 100`.  Note the source adds 1,
not `step`, to the stop spin-box value. -/
def indVarVals (r : CompRow) : List ℚ :=
  (arange r.start (r.stop + 1) r.step).map (fun x => x / 100)

/-- Elementwise subtraction of composition vectors (`fill_vals - comp_vals`). -/
def vecSub (a b : List ℚ) : List ℚ :=
  List.zipWith (fun x y => x - y) a b

/-- Vector of a `Multiple` row (line 797): `ind_var * multiplier`. -/
def multVec (iv : List ℚ) (r : CompRow) : List ℚ :=
  iv.map (fun x => x * r.mult)

/-- Vector of a `Fixed` row (lines 802-803):
`np.ones(len(ind_var)) * value / 100`. -/
def fixedVec (len : Nat) (r : CompRow) : List ℚ :=
  List.replicate len (r.start / 100)

/-- Fill vector (lines 794-805): starts from `1 - ind_var`, then the vector of
every `Multiple` row and then of every `Fixed` row is subtracted, in grid
order. -/
def fillVals (rows : List CompRow) (iv : List ℚ) : List ℚ :=
  (rows.filter (fun r => r.role = Role.fixed)).foldl
    (fun fv r => vecSub fv (fixedVec iv.length r))
    ((rows.filter (fun r => r.role = Role.multiple)).foldl
      (fun fv r => vecSub fv (multVec iv r))
      (iv.map (fun x => 1 - x)))

/-- Channel vector assigned to one grid row, given the independent-variable
vector `iv` and the fill vector `fv` (lines 791-808). A `dash` row never
reaches this point. -/
def chanVec (iv fv : List ℚ) (r : CompRow) : List ℚ :=
  match r.role with
  | Role.indvar => iv
  | Role.multiple => multVec iv r
  | Role.fixed => fixedVec iv.length r
  | Role.fill => fv
  | Role.dash => []

/-- Number of rows holding a given role. -/
def countRole (rows : List CompRow) (ρ : Role) : Nat :=
  (rows.filter (fun r => r.role = ρ)).length

/-- Embeds `np.array(comp_list).T` followed by `.tolist()` (lines 814-815) for
a list of channel columns all of length `L`: row `j` of the result collects
entry `j` of every channel column. -/
def transposeM (cols : List (List ℚ)) (L : Nat) : List (List ℚ) :=
  (List.range L).map (fun j => cols.map (fun c => c.getD j 0))

/-- Embeds the composition-sweep branch of `MainWindow.update_ind_var`
(catalight_GUI.py lines 757-816). Returns the matrix stored on the
experiment (`setattr(expt, expt.ind_var, comp_list)`), or `none` when the
update is rejected and nothing is stored. -/
def update_ind_var (rows : List CompRow) : Option (List (List ℚ)) :=
  if ∃ r ∈ rows, r.role = Role.dash then none
  else if countRole rows Role.fill ≠ 1 ∨ countRole rows Role.indvar ≠ 1 then
    none
  else
    match rows.find? (fun r => r.role = Role.indvar) with
    | none => none
    | some ivr =>
      if ivr.stop + 1 > ivr.start ∧ ivr.step > 0 then
        let iv := indVarVals ivr
        let fv := fillVals rows iv
        if ∃ x ∈ fv, x < 0 then none
        else some (transposeM (rows.map (chanVec iv fv)) iv.length)
      else none

/-- Concrete role assignment whose `Ind. Variable` row has stop = start = 20
(and step = 5): stop is not greater than start, yet the source accepts it
because it tests `stop + 1 > start` on the spin-box values. -/
def ex5rows : List CompRow :=
  [⟨Role.indvar, 0, 20, 20, 5⟩, ⟨Role.fill, 0, 0, 0, 0⟩,
   ⟨Role.fixed, 0, 0, 0, 0⟩, ⟨Role.fixed, 0, 0, 0, 0⟩]

/-- Concrete accepted role assignment: sweep 10..30 % step 10 on row 1, fill
on row 2, a fixed 20 % on row 3, a fixed 0 % on row 4. -/
def ex1rows : List CompRow :=
  [⟨Role.indvar, 0, 10, 30, 10⟩, ⟨Role.fill, 0, 0, 0, 0⟩,
   ⟨Role.fixed, 0, 20, 0, 0⟩, ⟨Role.fixed, 0, 0, 0, 0⟩]

/-- Concrete rejected role assignment: sweep 60..80 % plus a fixed 50 %
overflows the fill channel (fill values -1/10 and -3/10). -/
def ex2rows : List CompRow :=
  [⟨Role.indvar, 0, 60, 80, 20⟩, ⟨Role.fixed, 0, 50, 0, 0⟩,
   ⟨Role.fill, 0, 0, 0, 0⟩, ⟨Role.fixed, 0, 0, 0, 0⟩]

/-- Concrete role assignment whose `Ind. Variable` row has stop < start: the
planner rejects it. -/
def ex5badrows : List CompRow :=
  [⟨Role.indvar, 0, 20, 10, 5⟩, ⟨Role.fill, 0, 0, 0, 0⟩,
   ⟨Role.fixed, 0, 0, 0, 0⟩, ⟨Role.fixed, 0, 0, 0, 0⟩]

end CatalightGUI

namespace GCAnalysis

/-- Result of one `np.polyfit` call: slope `m`, intercept `b` and their
standard errors, as written into the calibration columns
`slope, err_slope, intercept, err_intercept`. -/
structure FitRes where
  m : ℚ
  b : ℚ
  err_m : ℚ
  err_b : ℚ
  deriving DecidableEq, Repr

/-- Embeds the per-chemical fitting loop of `analyze_cal_data`
(gc_analysis.py lines 103-144). Each chemical comes with the outcome of its
`np.polyfit` call: `some f` for a successful fit, `none` for
`np.linalg.LinAlgError` (caught by the `except` clause, which only draws a
"Bad Fit" label). The second argument is the current value of the Python
variables `m, err_m, b, err_b`: `none` while they are still undefined, in
which case reading them raises `NameError`. The line
`new_calibration.loc[chemical, ...] = [m, err_m, b, err_b]` sits outside the
try/except, so it executes for every chemical with whatever values the
variables hold. The result lists the rows written to `new_calibration` in
order; a raised exception aborts the loop (and the function, before
`to_csv`), so on an error the rows collected are never persisted. -/
def analyze_cal_loop :
    List (String × Option FitRes) → Option FitRes →
      List (String × FitRes) × Option PyErr
  | [], _ => ([], none)
  | (chem, some f) :: rest, _ =>
    let r := analyze_cal_loop rest (some f)
    ((chem, f) :: r.1, r.2)
  | (chem, none) :: rest, some prev =>
    let r := analyze_cal_loop rest (some prev)
    ((chem, prev) :: r.1, r.2)
  | (_, none) :: _, none => ([], some PyErr.nameError)

/-- Embeds `analyze_cal_data` restricted to the calibration-table writes: the
fit variables are undefined when the loop starts. -/
def analyze_cal_data (chems : List (String × Option FitRes)) :
    List (String × FitRes) × Option PyErr :=
  analyze_cal_loop chems none

end GCAnalysis

namespace GasControl

/-- Sum of an elementwise-divided list. -/
theorem sum_map_div (l : List ℚ) (c : ℚ) :
    (l.map (fun x => x / c)).sum = l.sum / c := by
  induction l with
  | nil => simp
  | cons a t ih => simp [ih, add_div]

theorem check_comp_total_of_sum_100 (l : List ℚ) (h : l.sum = 100) :
    check_comp_total l = (l.map (fun x => x / 100), none) := by
  have hs : (l.map (fun x => x / 100)).sum = 1 := by
    rw [sum_map_div, h]; norm_num
  simp [check_comp_total, h, hs]

theorem check_comp_total_of_sum_01 (l : List ℚ) (h : l.sum = 0 ∨ l.sum = 1) :
    check_comp_total l = (l, none) := by
  rcases h with h | h <;> simp [check_comp_total, h]

theorem check_comp_total_raises (l : List ℚ)
    (h0 : l.sum ≠ 0) (h1 : l.sum ≠ 1) (h100 : l.sum ≠ 100) :
    (check_comp_total l).2 = some PyErr.attributeError := by
  simp [check_comp_total, h0, h1, h100]

theorem check_comp_total_keeps_list (l : List ℚ) (h : l.sum ≠ 100) :
    (check_comp_total l).1 = l := by
  by_cases h1 : l.sum = 1
  · simp [check_comp_total, h, h1]
  · by_cases h0 : l.sum = 0
    · simp [check_comp_total, h, h0]
    · simp [check_comp_total, h, h0, h1]

theorem check_comp_total_none_sum (l cl : List ℚ)
    (h : check_comp_total l = (cl, none)) : cl.sum = 0 ∨ cl.sum = 1 := by
  by_cases h100 : l.sum = 100
  · rw [check_comp_total_of_sum_100 l h100] at h
    simp only [Prod.mk.injEq] at h
    right
    rw [← h.1, sum_map_div, h100]
    norm_num
  · by_cases h01 : l.sum = 0 ∨ l.sum = 1
    · rw [check_comp_total_of_sum_01 l h01] at h
      simp only [Prod.mk.injEq] at h
      rw [← h.1]
      exact h01
    · push_neg at h01
      have hr := check_comp_total_raises l h01.1 h01.2 h100
      rw [h] at hr
      simp at hr

/-- The composition list visible to the caller after `set_gasE` is exactly the
list after `check_comp_total`. -/
theorem set_gasE_list (s : Gas_System) (l : List ℚ) :
    (set_gasE s l).2.1 = (check_comp_total l).1 := by
  unfold set_gasE
  cases hc : check_comp_total l with
  | mk cl e =>
    cases e with
    | some err => rfl
    | none =>
      dsimp only
      split
      · rfl
      · split
        · rfl
        · rfl

/-- The composition list visible to the caller after `set_flows` is exactly
the list after `check_comp_total`. -/
theorem set_flows_list (s : Gas_System) (l : List ℚ) (t : ℚ) :
    (set_flows s l t).2.1 = (check_comp_total l).1 := by
  unfold set_flows
  cases hc : check_comp_total l with
  | mk cl e =>
    cases e with
    | some err => rfl
    | none =>
      dsimp only
      have hcl : cl.sum = 0 ∨ cl.sum = 1 := check_comp_total_none_sum l cl hc
      cases h0 : cl.get? 0 with
      | none => rfl
      | some c0 =>
        cases h1 : cl.get? 1 with
        | none => rfl
        | some c1 =>
          cases h2 : cl.get? 2 with
          | none => rfl
          | some c2 =>
            cases h3 : cl.get? 3 with
            | none => rfl
            | some c3 =>
              rw [set_gasE_list, check_comp_total_of_sum_01 cl hcl]

/-- C3: `check_comp_total` divides by 100 any list summing to exactly 100,
returns unchanged any list summing to 0 or 1, and raises for every other
input; in particular [25,25,25,25] becomes [0.25,0.25,0.25,0.25],
[0.25,0.25,0.25,0.25] is unchanged, and [10,10,10,10] raises. Sums are exact
rational sums: the source compares the Python float sum with `==`, which this
embedding models as exact equality. -/
theorem check_comp_total_spec :
    (∀ l : List ℚ, l.sum = 100 →
       check_comp_total l = (l.map (fun x => x / 100), none))
    ∧ (∀ l : List ℚ, l.sum = 0 ∨ l.sum = 1 → check_comp_total l = (l, none))
    ∧ (∀ l : List ℚ, l.sum ≠ 0 → l.sum ≠ 1 → l.sum ≠ 100 →
       (check_comp_total l).2 = some PyErr.attributeError)
    ∧ check_comp_total [25, 25, 25, 25] = ([1/4, 1/4, 1/4, 1/4], none)
    ∧ check_comp_total [1/4, 1/4, 1/4, 1/4] = ([1/4, 1/4, 1/4, 1/4], none)
    ∧ (check_comp_total [10, 10, 10, 10]).2 = some PyErr.attributeError := by
  refine ⟨check_comp_total_of_sum_100, check_comp_total_of_sum_01,
    check_comp_total_raises, ?_, ?_, ?_⟩
  · rw [check_comp_total_of_sum_100 [25, 25, 25, 25] (by norm_num)]
    norm_num
  · exact check_comp_total_of_sum_01 _ (Or.inr (by norm_num))
  · exact check_comp_total_raises _ (by norm_num) (by norm_num) (by norm_num)

/-- Witness for C3 at a further concrete percentage list. -/
theorem check_comp_total_spec_witness :
    check_comp_total [(50:ℚ), 30, 20]
      = ([(50:ℚ), 30, 20].map (fun x => x / 100), none) :=
  check_comp_total_spec.1 [50, 30, 20] (by norm_num)

/-- C10: `check_comp_total` rescales the caller's list object in place (slice
assignment) when it sums to exactly 100 and leaves it untouched otherwise, so
after `set_flows` returns, the caller's list holds fractions when percentages
were passed, and is unchanged for inputs not summing to 100. -/
theorem check_comp_total_mutates_in_place :
    (∀ l : List ℚ, l.sum = 100 →
       (check_comp_total l).1 = l.map (fun x => x / 100))
    ∧ (∀ l : List ℚ, l.sum ≠ 100 → (check_comp_total l).1 = l)
    ∧ (∀ (s : Gas_System) (l : List ℚ) (t : ℚ), l.sum = 100 →
       (set_flows s l t).2.1 = l.map (fun x => x / 100))
    ∧ (∀ (s : Gas_System) (l : List ℚ) (t : ℚ), l.sum ≠ 100 →
       (set_flows s l t).2.1 = l) := by
  refine ⟨?_, check_comp_total_keeps_list, ?_, ?_⟩
  · intro l h
    rw [check_comp_total_of_sum_100 l h]
  · intro s l t h
    rw [set_flows_list, check_comp_total_of_sum_100 l h]
  · intro s l t h
    rw [set_flows_list, check_comp_total_keeps_list l h]

/-- Witness for C10: passing percentages [25,25,25,25] through `set_flows`
leaves the caller's list rescaled to quarters. -/
theorem check_comp_total_mutates_in_place_witness :
    (set_flows exampleSystem [25, 25, 25, 25] 100).2.1
      = [(25:ℚ), 25, 25, 25].map (fun x => x / 100) :=
  check_comp_total_mutates_in_place.2.2.1 exampleSystem [25, 25, 25, 25] 100
    (by norm_num)

/-- Behaviour of `set_gasE` when exactly one non-zero gas entry survives:
that species is selected directly on channel E, and no custom mix is
written. -/
theorem set_gasE_single_proj (s : Gas_System) (cl : List ℚ) (p : String × ℚ)
    (hc : check_comp_total cl = (cl, none))
    (hd : (pyDict ([s.mfc_A.gas, s.mfc_B.gas, s.mfc_C.gas,
        s.mfc_D.gas].zip (cl.map (fun x => x * 100)))).filter
        (fun q => q.2 ≠ 0) = [p]) :
    (set_gasE s cl).2.2 = none
    ∧ (set_gasE s cl).1.mfc_E_gas = EGas.species p.1
    ∧ (set_gasE s cl).1.mixes_written = s.mixes_written
    ∧ (set_gasE s cl).1.is_busy = false := by
  unfold set_gasE
  rw [hc]
  dsimp only [issue]
  rw [hd]
  norm_num

/-- Behaviour of `set_gasE` when every gas entry is dropped as zero: the
single-gas branch indexes an empty dict and raises `IndexError`, leaving the
busy flag set and channel E untouched. -/
theorem set_gasE_empty_proj (s : Gas_System) (cl : List ℚ)
    (hc : check_comp_total cl = (cl, none))
    (hd : (pyDict ([s.mfc_A.gas, s.mfc_B.gas, s.mfc_C.gas,
        s.mfc_D.gas].zip (cl.map (fun x => x * 100)))).filter
        (fun q => q.2 ≠ 0) = []) :
    (set_gasE s cl).2.2 = some PyErr.indexError
    ∧ (set_gasE s cl).1.mfc_E_gas = s.mfc_E_gas
    ∧ (set_gasE s cl).1.mixes_written = s.mixes_written
    ∧ (set_gasE s cl).1.is_busy = true := by
  unfold set_gasE
  rw [hc]
  dsimp only [issue]
  rw [hd]
  norm_num

/-- C4: `set_gasE` on channel gases [Ar, H2, Ar, Ar] with fractions
[0.5, 0.2, 0.3, 0] does NOT write the duplicate-summed mixture
\x7bAr: 80, H2: 20\x7d claimed by the spec: `dict(zip(gas_list, percents))`
keeps only the LAST percent of a duplicated species (Ar ends at 0 and is then
dropped as a zero entry), so the embedded code selects pure H2 on channel E
and writes no custom mix at all. -/
theorem set_gasE_duplicate_last_wins :
    (set_gasE exampleSystem [1/2, 1/5, 3/10, 0]).2.2 = none
    ∧ (set_gasE exampleSystem [1/2, 1/5, 3/10, 0]).1.mfc_E_gas
        = EGas.species "H2"
    ∧ (set_gasE exampleSystem [1/2, 1/5, 3/10, 0]).1.mixes_written = [] := by
  have hc : check_comp_total [(1:ℚ)/2, 1/5, 3/10, 0]
      = ([(1:ℚ)/2, 1/5, 3/10, 0], none) :=
    check_comp_total_of_sum_01 _ (Or.inr (by norm_num))
  have hd : (pyDict ([exampleSystem.mfc_A.gas, exampleSystem.mfc_B.gas,
      exampleSystem.mfc_C.gas, exampleSystem.mfc_D.gas].zip
      (([(1:ℚ)/2, 1/5, 3/10, 0]).map (fun x => x * 100)))).filter
      (fun q => q.2 ≠ 0) = [("H2", (1:ℚ)/5 * 100)] := by
    rw [show pyDict ([exampleSystem.mfc_A.gas, exampleSystem.mfc_B.gas,
        exampleSystem.mfc_C.gas, exampleSystem.mfc_D.gas].zip
        (([(1:ℚ)/2, 1/5, 3/10, 0]).map (fun x => x * 100)))
      = [("Ar", (0:ℚ) * 100), ("H2", (1:ℚ)/5 * 100)] from rfl]
    norm_num [List.filter]
  have h := set_gasE_single_proj exampleSystem [1/2, 1/5, 3/10, 0]
    ("H2", (1:ℚ)/5 * 100) hc hd
  exact ⟨h.1, h.2.1, h.2.2.1⟩

theorem nonneg_sum_zero (l : List ℚ) (hnn : ∀ x ∈ l, 0 ≤ x)
    (h : l.sum = 0) : ∀ x ∈ l, x = 0 := by
  induction l with
  | nil => simp
  | cons a t ih =>
    have hta : 0 ≤ a := hnn a (by simp)
    have htt : 0 ≤ t.sum :=
      List.sum_nonneg (fun x hx => hnn x (by simp [hx]))
    simp only [List.sum_cons] at h
    have ha : a = 0 := by linarith
    have ht : t.sum = 0 := by linarith
    intro x hx
    rcases List.mem_cons.mp hx with rfl | hx2
    · exact ha
    · exact ih (fun y hy => hnn y (by simp [hy])) ht x hx2

theorem pyDictInsert_snd_zero (d : List (String × ℚ)) (k : String) (v : ℚ)
    (hd : ∀ q ∈ d, q.2 = 0) (hv : v = 0) :
    ∀ q ∈ pyDictInsert d k v, q.2 = 0 := by
  intro q hq
  unfold pyDictInsert at hq
  by_cases h : d.any (fun p => p.1 = k)
  · rw [if_pos h] at hq
    obtain ⟨p, hp, hpq⟩ := List.mem_map.mp hq
    by_cases hpk : p.1 = k
    · rw [if_pos hpk] at hpq
      rw [← hpq]
      exact hv
    · rw [if_neg hpk] at hpq
      rw [← hpq]
      exact hd p hp
  · rw [if_neg h] at hq
    rcases List.mem_append.mp hq with h1 | h1
    · exact hd q h1
    · simp only [List.mem_singleton] at h1
      rw [h1]
      exact hv

theorem pyDict_foldl_snd_zero (pairs : List (String × ℚ)) :
    ∀ d : List (String × ℚ), (∀ q ∈ d, q.2 = 0) → (∀ p ∈ pairs, p.2 = 0) →
      ∀ q ∈ pairs.foldl (fun d p => pyDictInsert d p.1 p.2) d, q.2 = 0 := by
  induction pairs with
  | nil =>
    intro d hd _
    simpa using hd
  | cons a t ih =>
    intro d hd hp
    simp only [List.foldl_cons]
    exact ih (pyDictInsert d a.1 a.2)
      (pyDictInsert_snd_zero d a.1 a.2 hd (hp a (by simp)))
      (fun p hpt => hp p (by simp [hpt]))

/-- C9 (amended): for every composition list with nonnegative entries summing
to 0 — which `check_comp_total` accepts unchanged — all entries are zero, so
`set_gasE` drops every entry, the gas dict is empty, and `list(gas_dict)[0]`
raises `IndexError` without updating channel E. (Nonnegativity is needed: a
mixed-sign list summing to 0 keeps its non-zero entries and does not raise.) -/
theorem set_gasE_all_zero_raises (comp : List ℚ)
    (hnn : ∀ x ∈ comp, 0 ≤ x) (hsum : comp.sum = 0) (s : Gas_System) :
    (set_gasE s comp).2.2 = some PyErr.indexError
    ∧ (set_gasE s comp).1.mfc_E_gas = s.mfc_E_gas
    ∧ (set_gasE s comp).1.mixes_written = s.mixes_written := by
  have hall : ∀ x ∈ comp, x = 0 := nonneg_sum_zero comp hnn hsum
  have hc : check_comp_total comp = (comp, none) :=
    check_comp_total_of_sum_01 comp (Or.inl hsum)
  have hd : (pyDict ([s.mfc_A.gas, s.mfc_B.gas, s.mfc_C.gas,
      s.mfc_D.gas].zip (comp.map (fun x => x * 100)))).filter
      (fun q => q.2 ≠ 0) = [] := by
    rw [List.filter_eq_nil_iff]
    intro q hq
    have hq0 : q.2 = 0 := by
      refine pyDict_foldl_snd_zero _ [] (by simp) ?_ q hq
      intro p hp
      have h2 := (List.of_mem_zip hp).2
      obtain ⟨x, hx, hxe⟩ := List.mem_map.mp h2
      rw [← hxe, hall x hx]
      ring
    simp [hq0]
  have h := set_gasE_empty_proj s comp hc hd
  exact ⟨h.1, h.2.1, h.2.2.1⟩

/-- Witness for the amended C9 at the all-zero list on `exampleSystem`. -/
theorem set_gasE_all_zero_raises_witness :
    (set_gasE exampleSystem [0, 0, 0, 0]).2.2 = some PyErr.indexError
    ∧ (set_gasE exampleSystem [0, 0, 0, 0]).1.mfc_E_gas
        = exampleSystem.mfc_E_gas
    ∧ (set_gasE exampleSystem [0, 0, 0, 0]).1.mixes_written
        = exampleSystem.mixes_written :=
  set_gasE_all_zero_raises [0, 0, 0, 0]
    (by intro x hx; simp at hx; rw [hx]) (by norm_num) exampleSystem

/-- C9 counterexample: [1/2, -1/2, 0, 0] sums to 0 (so the claim as stated
covers it), yet `set_gasE` keeps the non-zero entries, selects H2 directly,
and raises nothing. -/
theorem set_gasE_sum_zero_no_raise :
    ([(1:ℚ)/2, -(1/2), 0, 0].sum = 0)
    ∧ (set_gasE exampleSystem [1/2, -(1/2), 0, 0]).2.2 = none := by
  constructor
  · norm_num
  · have hc : check_comp_total [(1:ℚ)/2, -(1/2), 0, 0]
        = ([(1:ℚ)/2, -(1/2), 0, 0], none) :=
      check_comp_total_of_sum_01 _ (Or.inl (by norm_num))
    have hd : (pyDict ([exampleSystem.mfc_A.gas, exampleSystem.mfc_B.gas,
        exampleSystem.mfc_C.gas, exampleSystem.mfc_D.gas].zip
        (([(1:ℚ)/2, -(1/2), 0, 0]).map (fun x => x * 100)))).filter
        (fun q => q.2 ≠ 0) = [("H2", -(1/2) * 100)] := by
      rw [show pyDict ([exampleSystem.mfc_A.gas, exampleSystem.mfc_B.gas,
          exampleSystem.mfc_C.gas, exampleSystem.mfc_D.gas].zip
          (([(1:ℚ)/2, -(1/2), 0, 0]).map (fun x => x * 100)))
        = [("Ar", (0:ℚ) * 100), ("H2", -(1/2) * 100)] from rfl]
      norm_num [List.filter]
    exact (set_gasE_single_proj exampleSystem [1/2, -(1/2), 0, 0]
      ("H2", -(1/2) * 100) hc hd).1

/-- Every command logged by `set_gasE` is issued with the busy flag set. -/
theorem set_gasE_mem_log (s : Gas_System) (cl : List ℚ) :
    ∀ p ∈ (set_gasE s cl).1.log, p ∈ s.log ∨ p.2 = true := by
  unfold set_gasE
  cases hc : check_comp_total cl with
  | mk cl2 e =>
    cases e with
    | some err => intro p hp; exact Or.inl hp
    | none =>
      dsimp only [issue]
      split
      · intro p hp
        simp only [List.append_assoc, List.mem_append,
          List.mem_singleton] at hp
        rcases hp with hp | hp | hp | hp | hp | hp | hp
        · exact Or.inl hp
        all_goals (right; rw [hp])
      · split
        · intro p hp
          simp only [List.append_assoc, List.mem_append,
            List.mem_singleton] at hp
          rcases hp with hp | hp | hp | hp | hp | hp
          · exact Or.inl hp
          all_goals (right; rw [hp])
        · intro p hp
          simp only [List.append_assoc, List.mem_append,
            List.mem_singleton] at hp
          rcases hp with hp | hp | hp | hp | hp
          · exact Or.inl hp
          all_goals (right; rw [hp])

/-- `set_gasE` clears the busy flag on every non-raising return. -/
theorem set_gasE_busy_of_none (s : Gas_System) (cl : List ℚ)
    (h : (set_gasE s cl).2.2 = none) :
    (set_gasE s cl).1.is_busy = false := by
  revert h
  unfold set_gasE
  cases hc : check_comp_total cl with
  | mk cl2 e =>
    cases e with
    | some err => intro h; simp at h
    | none =>
      dsimp only [issue]
      split
      · intro _; rfl
      · split
        · intro _; rfl
        · intro h; simp at h

/-- Every command logged by `set_gasses` is issued with the busy flag set. -/
theorem set_gasses_mem_log (s : Gas_System) (gl : List String) :
    ∀ p ∈ (set_gasses s gl).1.log, p ∈ s.log ∨ p.2 = true := by
  unfold set_gasses cmd_set_gas_A cmd_set_gas_B cmd_set_gas_C cmd_set_gas_D
    issue
  dsimp only
  cases gl.get? 0 with
  | none => intro p hp; exact Or.inl hp
  | some g0 =>
    cases gl.get? 1 with
    | none =>
      intro p hp
      simp only [List.append_assoc, List.mem_append, List.mem_singleton] at hp
      rcases hp with hp | hp
      · exact Or.inl hp
      · right; rw [hp]
    | some g1 =>
      cases gl.get? 2 with
      | none =>
        intro p hp
        simp only [List.append_assoc, List.mem_append,
          List.mem_singleton] at hp
        rcases hp with hp | hp | hp
        · exact Or.inl hp
        all_goals (right; rw [hp])
      | some g2 =>
        cases gl.get? 3 with
        | none =>
          intro p hp
          simp only [List.append_assoc, List.mem_append,
            List.mem_singleton] at hp
          rcases hp with hp | hp | hp | hp
          · exact Or.inl hp
          all_goals (right; rw [hp])
        | some g3 =>
          intro p hp
          simp only [List.append_assoc, List.mem_append,
            List.mem_singleton] at hp
          rcases hp with hp | hp | hp | hp | hp
          · exact Or.inl hp
          all_goals (right; rw [hp])

/-- `set_gasses` clears the busy flag on every non-raising return. -/
theorem set_gasses_busy_of_none (s : Gas_System) (gl : List String)
    (h : (set_gasses s gl).2 = none) :
    (set_gasses s gl).1.is_busy = false := by
  revert h
  unfold set_gasses cmd_set_gas_A cmd_set_gas_B cmd_set_gas_C cmd_set_gas_D
    issue
  dsimp only
  cases gl.get? 0 with
  | none => intro h; simp at h
  | some g0 =>
    cases gl.get? 1 with
    | none => intro h; simp at h
    | some g1 =>
      cases gl.get? 2 with
      | none => intro h; simp at h
      | some g2 =>
        cases gl.get? 3 with
        | none => intro h; simp at h
        | some g3 => intro _; rfl

/-- Every command logged by `set_flows` is issued with the busy flag set. -/
theorem set_flows_mem_log (s : Gas_System) (l : List ℚ) (t : ℚ) :
    ∀ p ∈ (set_flows s l t).1.log, p ∈ s.log ∨ p.2 = true := by
  unfold set_flows cmd_set_flow_A cmd_set_flow_B cmd_set_flow_C cmd_set_flow_D
    issue
  cases hc : check_comp_total l with
  | mk cl e =>
    cases e with
    | some err => intro p hp; exact Or.inl hp
    | none =>
      dsimp only
      cases cl.get? 0 with
      | none => intro p hp; exact Or.inl hp
      | some c0 =>
        cases cl.get? 1 with
        | none =>
          intro p hp
          simp only [List.append_assoc, List.mem_append,
            List.mem_singleton] at hp
          rcases hp with hp | hp
          · exact Or.inl hp
          · right; rw [hp]
        | some c1 =>
          cases cl.get? 2 with
          | none =>
            intro p hp
            simp only [List.append_assoc, List.mem_append,
              List.mem_singleton] at hp
            rcases hp with hp | hp | hp
            · exact Or.inl hp
            all_goals (right; rw [hp])
          | some c2 =>
            cases cl.get? 3 with
            | none =>
              intro p hp
              simp only [List.append_assoc, List.mem_append,
                List.mem_singleton] at hp
              rcases hp with hp | hp | hp | hp
              · exact Or.inl hp
              all_goals (right; rw [hp])
            | some c3 =>
              intro p hp
              rcases set_gasE_mem_log _ cl p hp with h | h
              · dsimp only at h
                simp only [List.append_assoc, List.mem_append,
                  List.mem_singleton] at h
                rcases h with h | h | h | h | h
                · exact Or.inl h
                all_goals (right; rw [h])
              · exact Or.inr h

/-- `set_flows` clears the busy flag on every non-raising return. -/
theorem set_flows_busy_of_none (s : Gas_System) (l : List ℚ) (t : ℚ)
    (h : (set_flows s l t).2.2 = none) :
    (set_flows s l t).1.is_busy = false := by
  revert h
  unfold set_flows cmd_set_flow_A cmd_set_flow_B cmd_set_flow_C cmd_set_flow_D
    issue
  cases hc : check_comp_total l with
  | mk cl e =>
    cases e with
    | some err => intro h; simp at h
    | none =>
      dsimp only
      cases cl.get? 0 with
      | none => intro h; simp at h
      | some c0 =>
        cases cl.get? 1 with
        | none => intro h; simp at h
        | some c1 =>
          cases cl.get? 2 with
          | none => intro h; simp at h
          | some c2 =>
            cases cl.get? 3 with
            | none => intro h; simp at h
            | some c3 => exact set_gasE_busy_of_none _ cl

/-- A composition-check failure inside `set_flows` is raised before the busy
flag is touched: the state is returned unchanged. -/
theorem set_flows_check_err (s : Gas_System) (l : List ℚ) (t : ℚ)
    (h : (check_comp_total l).2 ≠ none) :
    (set_flows s l t).1 = s := by
  unfold set_flows
  cases hc : check_comp_total l with
  | mk cl e =>
    cases e with
    | some err => rfl
    | none => rw [hc] at h; simp at h

theorem shut_down_A_props (s : Gas_System) :
    (∀ p ∈ (shut_down_A s).log, p ∈ s.log ∨ p.2 = s.is_busy)
    ∧ (shut_down_A s).is_busy = s.is_busy := by
  unfold shut_down_A cmd_set_flow_A issue
  dsimp only
  split_ifs with h
  all_goals (
    refine ⟨?_, rfl⟩
    intro p hp
    simp only [List.append_assoc, List.mem_append, List.mem_singleton] at hp
    rcases hp with hp | hp | hp
    · exact Or.inl hp
    all_goals (right; rw [hp]))

theorem shut_down_B_props (s : Gas_System) :
    (∀ p ∈ (shut_down_B s).log, p ∈ s.log ∨ p.2 = s.is_busy)
    ∧ (shut_down_B s).is_busy = s.is_busy := by
  unfold shut_down_B cmd_set_flow_B issue
  dsimp only
  split_ifs with h
  all_goals (
    refine ⟨?_, rfl⟩
    intro p hp
    simp only [List.append_assoc, List.mem_append, List.mem_singleton] at hp
    rcases hp with hp | hp | hp
    · exact Or.inl hp
    all_goals (right; rw [hp]))

theorem shut_down_C_props (s : Gas_System) :
    (∀ p ∈ (shut_down_C s).log, p ∈ s.log ∨ p.2 = s.is_busy)
    ∧ (shut_down_C s).is_busy = s.is_busy := by
  unfold shut_down_C cmd_set_flow_C issue
  dsimp only
  split_ifs with h
  all_goals (
    refine ⟨?_, rfl⟩
    intro p hp
    simp only [List.append_assoc, List.mem_append, List.mem_singleton] at hp
    rcases hp with hp | hp | hp
    · exact Or.inl hp
    all_goals (right; rw [hp]))

theorem shut_down_D_props (s : Gas_System) :
    (∀ p ∈ (shut_down_D s).log, p ∈ s.log ∨ p.2 = s.is_busy)
    ∧ (shut_down_D s).is_busy = s.is_busy := by
  unfold shut_down_D cmd_set_flow_D issue
  dsimp only
  split_ifs with h
  all_goals (
    refine ⟨?_, rfl⟩
    intro p hp
    simp only [List.append_assoc, List.mem_append, List.mem_singleton] at hp
    rcases hp with hp | hp | hp
    · exact Or.inl hp
    all_goals (right; rw [hp]))

/-- Every command logged by `shut_down` is issued with the busy flag set, and
the flag ends clear. -/
theorem shut_down_props (s : Gas_System) :
    (∀ p ∈ (shut_down s).log, p ∈ s.log ∨ p.2 = true)
    ∧ (shut_down s).is_busy = false := by
  unfold shut_down
  dsimp only
  refine ⟨?_, rfl⟩
  intro p hp
  have hb1 : ({ s with is_busy := true } : Gas_System).is_busy = true := rfl
  have hb2 := (shut_down_A_props { s with is_busy := true }).2.trans hb1
  have hb3 := (shut_down_B_props _).2.trans hb2
  have hb4 := (shut_down_C_props _).2.trans hb3
  rcases (shut_down_D_props _).1 p hp with h | h
  · rcases (shut_down_C_props _).1 p h with h2 | h2
    · rcases (shut_down_B_props _).1 p h2 with h3 | h3
      · rcases (shut_down_A_props _).1 p h3 with h4 | h4
        · exact Or.inl h4
        · exact Or.inr (h4.trans hb1)
      · exact Or.inr (h3.trans hb2)
    · exact Or.inr (h2.trans hb3)
  · exact Or.inr (h.trans hb4)

/-- Every command logged by `read_flows` is issued with the busy flag set, and
the flag ends clear. -/
theorem read_flows_props (s : Gas_System) :
    (∀ p ∈ (read_flows s).1.log, p ∈ s.log ∨ p.2 = true)
    ∧ (read_flows s).1.is_busy = false := by
  unfold read_flows issue
  dsimp only
  refine ⟨?_, rfl⟩
  intro p hp
  simp only [List.append_assoc, List.mem_append, List.mem_singleton] at hp
  rcases hp with hp | hp | hp | hp | hp | hp
  · exact Or.inl hp
  all_goals (right; rw [hp])

/-- C6 (amended): each `Gas_System` operation issues every channel command
with `is_busy` set; on every non-raising return the flag is cleared before
returning (and a composition-check failure inside `set_flows` is raised
before the flag is touched, leaving the state unchanged). The original claim
fails on raising paths inside the busy section: see the counterexample
theorem, where `set_gasE` raises `IndexError` and leaves `is_busy` true. -/
theorem busy_flag_discipline :
    (∀ (s : Gas_System) (gl : List String), s.is_busy = false →
       (∀ p ∈ (set_gasses s gl).1.log, p ∈ s.log ∨ p.2 = true)
       ∧ ((set_gasses s gl).2 = none →
            (set_gasses s gl).1.is_busy = false))
    ∧ (∀ (s : Gas_System) (l : List ℚ) (t : ℚ), s.is_busy = false →
       (∀ p ∈ (set_flows s l t).1.log, p ∈ s.log ∨ p.2 = true)
       ∧ ((set_flows s l t).2.2 = none →
            (set_flows s l t).1.is_busy = false)
       ∧ ((check_comp_total l).2 ≠ none → (set_flows s l t).1 = s))
    ∧ (∀ (s : Gas_System) (l : List ℚ), s.is_busy = false →
       (∀ p ∈ (set_gasE s l).1.log, p ∈ s.log ∨ p.2 = true)
       ∧ ((set_gasE s l).2.2 = none → (set_gasE s l).1.is_busy = false))
    ∧ (∀ s : Gas_System, s.is_busy = false →
       (∀ p ∈ (shut_down s).log, p ∈ s.log ∨ p.2 = true)
       ∧ (shut_down s).is_busy = false)
    ∧ (∀ s : Gas_System, s.is_busy = false →
       (∀ p ∈ (read_flows s).1.log, p ∈ s.log ∨ p.2 = true)
       ∧ (read_flows s).1.is_busy = false) := by
  refine ⟨?_, ?_, ?_, ?_, ?_⟩
  · intro s gl _
    exact ⟨set_gasses_mem_log s gl, set_gasses_busy_of_none s gl⟩
  · intro s l t _
    exact ⟨set_flows_mem_log s l t, set_flows_busy_of_none s l t,
      set_flows_check_err s l t⟩
  · intro s l _
    exact ⟨set_gasE_mem_log s l, set_gasE_busy_of_none s l⟩
  · intro s _
    exact shut_down_props s
  · intro s _
    exact read_flows_props s

/-- Witness for the amended C6: a concrete `set_flows` run on the idle
example system ends with the busy flag clear. -/
theorem busy_flag_discipline_witness :
    (set_flows exampleSystem [1/4, 1/4, 1/4, 1/4] 100).2.2 = none
    ∧ (set_flows exampleSystem [1/4, 1/4, 1/4, 1/4] 100).1.is_busy
        = false := by
  have hc : check_comp_total [(1:ℚ)/4, 1/4, 1/4, 1/4]
      = ([(1:ℚ)/4, 1/4, 1/4, 1/4], none) :=
    check_comp_total_of_sum_01 _ (Or.inr (by norm_num))
  have hnone : (set_flows exampleSystem [1/4, 1/4, 1/4, 1/4] 100).2.2
      = none := by
    unfold set_flows
    rw [hc]
    dsimp only
    rw [show ([(1:ℚ)/4, 1/4, 1/4, 1/4]).get? 0 = some (1/4) from rfl,
      show ([(1:ℚ)/4, 1/4, 1/4, 1/4]).get? 1 = some (1/4) from rfl,
      show ([(1:ℚ)/4, 1/4, 1/4, 1/4]).get? 2 = some (1/4) from rfl,
      show ([(1:ℚ)/4, 1/4, 1/4, 1/4]).get? 3 = some (1/4) from rfl]
    dsimp only
    unfold set_gasE
    rw [hc]
    dsimp only [issue, cmd_set_flow_A, cmd_set_flow_B, cmd_set_flow_C,
      cmd_set_flow_D]
    rw [show pyDict ([exampleSystem.mfc_A.gas, exampleSystem.mfc_B.gas,
        exampleSystem.mfc_C.gas, exampleSystem.mfc_D.gas].zip
        (([(1:ℚ)/4, 1/4, 1/4, 1/4]).map (fun x => x * 100)))
      = [("Ar", (1:ℚ)/4 * 100), ("H2", (1:ℚ)/4 * 100)] from rfl]
    rw [show ([("Ar", (1:ℚ)/4 * 100), ("H2", (1:ℚ)/4 * 100)]).filter
        (fun q => q.2 ≠ 0)
      = [("Ar", (1:ℚ)/4 * 100), ("H2", (1:ℚ)/4 * 100)] from by
        norm_num [List.filter]]
    norm_num
  exact ⟨hnone,
    (busy_flag_discipline.2.1 exampleSystem [1/4, 1/4, 1/4, 1/4] 100
      rfl).2.1 hnone⟩

/-- C6 counterexample: `set_gasE` on the all-zero composition raises
`IndexError` from inside the busy section and returns with `is_busy` still
true: the flag is not cleared on this exit path. -/
theorem set_gasE_exception_leaves_busy :
    (set_gasE exampleSystem [0, 0, 0, 0]).2.2 = some PyErr.indexError
    ∧ (set_gasE exampleSystem [0, 0, 0, 0]).1.is_busy = true := by
  have hc : check_comp_total [(0:ℚ), 0, 0, 0] = ([(0:ℚ), 0, 0, 0], none) :=
    check_comp_total_of_sum_01 _ (Or.inl (by norm_num))
  have hd : (pyDict ([exampleSystem.mfc_A.gas, exampleSystem.mfc_B.gas,
      exampleSystem.mfc_C.gas, exampleSystem.mfc_D.gas].zip
      (([(0:ℚ), 0, 0, 0]).map (fun x => x * 100)))).filter
      (fun q => q.2 ≠ 0) = [] := by
    rw [show pyDict ([exampleSystem.mfc_A.gas, exampleSystem.mfc_B.gas,
        exampleSystem.mfc_C.gas, exampleSystem.mfc_D.gas].zip
        (([(0:ℚ), 0, 0, 0]).map (fun x => x * 100)))
      = [("Ar", (0:ℚ) * 100), ("H2", (0:ℚ) * 100)] from rfl]
    norm_num [List.filter]
  have h := set_gasE_empty_proj exampleSystem [0, 0, 0, 0] hc hd
  exact ⟨h.1, h.2.2.2⟩

end GasControl

namespace CatalightGUI

theorem run_expts_all_none (runs : List (Option PyErr))
    (h : ∀ r ∈ runs, r = none) :
    run_expts runs = (runs.length, none) := by
  induction runs with
  | nil => rfl
  | cons a t ih =>
    have ha : a = none := h a (by simp)
    subst ha
    simp only [run_expts, ih (fun r hr => h r (by simp [hr])), List.length_cons]

theorem run_expts_first_raise (pre post : List (Option PyErr)) (e : PyErr)
    (h : ∀ r ∈ pre, r = none) :
    run_expts (pre ++ some e :: post) = (pre.length + 1, some e) := by
  induction pre with
  | nil => rfl
  | cons a t ih =>
    have ha : a = none := h a (by simp)
    subst ha
    simp only [List.cons_append, run_expts, List.append_eq,
      ih (fun r hr => h r (by simp [hr])), List.length_cons]

/-- C8 (amended): when every experiment's `run_experiment` returns normally,
`start_study` runs them all and invokes `shut_down` exactly once at the end;
an exception inside any experiment aborts the remaining experiments and
propagates out of `start_study` WITHOUT invoking `shut_down` (there is no
try/finally around the loop). -/
theorem start_study_shutdown :
    (∀ runs : List (Option PyErr), (∀ r ∈ runs, r = none) →
       start_study runs = (runs.length, 1, none))
    ∧ (∀ (pre post : List (Option PyErr)) (e : PyErr),
       (∀ r ∈ pre, r = none) →
       start_study (pre ++ some e :: post) = (pre.length + 1, 0, some e)) := by
  constructor
  · intro runs h
    unfold start_study
    rw [run_expts_all_none runs h]
  · intro pre post e h
    unfold start_study
    rw [run_expts_first_raise pre post e h]

/-- Witness for the amended C8: two successful experiments shut down once;
a failure in the second of three experiments skips shut_down entirely. -/
theorem start_study_shutdown_witness :
    start_study [none, none] = (2, 1, none)
    ∧ start_study [none, some PyErr.attributeError, none]
      = (2, 0, some PyErr.attributeError) := by
  constructor
  · exact start_study_shutdown.1 [none, none] (by intro r hr; simpa using hr)
  · exact start_study_shutdown.2 [none] [none] PyErr.attributeError
      (by intro r hr; simpa using hr)

/-- C8 counterexample: a study whose single experiment raises terminates with
zero `shut_down` invocations, not one. -/
theorem start_study_failure_skips_shutdown :
    start_study [some PyErr.attributeError]
      = (1, 0, some PyErr.attributeError) := rfl

theorem getD_map_lt (l : List ℚ) (f : ℚ → ℚ) (j : Nat) (h : j < l.length) :
    (l.map f).getD j 0 = f (l.getD j 0) := by
  induction l generalizing j with
  | nil => simp at h
  | cons a t ih =>
    cases j with
    | zero => simp
    | succ n =>
      simp only [List.map_cons, List.getD_cons_succ]
      exact ih n (by simpa using Nat.lt_of_succ_lt_succ h)

theorem getD_replicate_lt (n : Nat) (a : ℚ) (j : Nat) (h : j < n) :
    (List.replicate n a).getD j 0 = a := by
  induction n generalizing j with
  | zero => omega
  | succ m ih =>
    cases j with
    | zero => simp [List.replicate_succ]
    | succ k =>
      simp only [List.replicate_succ, List.getD_cons_succ]
      exact ih k (by omega)

theorem getD_vecSub (a b : List ℚ) (j : Nat)
    (ha : j < a.length) (hb : j < b.length) :
    (vecSub a b).getD j 0 = a.getD j 0 - b.getD j 0 := by
  induction a generalizing b j with
  | nil => simp at ha
  | cons x t ih =>
    cases b with
    | nil => simp at hb
    | cons y u =>
      cases j with
      | zero => simp [vecSub]
      | succ n =>
        simp only [vecSub, List.zipWith_cons_cons, List.getD_cons_succ]
        exact ih u n (by simpa using Nat.lt_of_succ_lt_succ ha)
          (by simpa using Nat.lt_of_succ_lt_succ hb)

theorem length_vecSub (a b : List ℚ) :
    (vecSub a b).length = min a.length b.length := by
  simp [vecSub]

theorem foldl_vecSub_length (rs : List CompRow) (f : CompRow → List ℚ)
    (init : List ℚ) (hf : ∀ r ∈ rs, (f r).length = init.length) :
    (rs.foldl (fun fv r => vecSub fv (f r)) init).length = init.length := by
  induction rs generalizing init with
  | nil => rfl
  | cons r t ih =>
    simp only [List.foldl_cons]
    have h1 : (vecSub init (f r)).length = init.length := by
      simp [length_vecSub, hf r (by simp)]
    rw [ih (vecSub init (f r))
      (fun x hx => by rw [h1]; exact hf x (List.mem_cons_of_mem r hx)), h1]

theorem foldl_vecSub_getD (rs : List CompRow) (f : CompRow → List ℚ)
    (init : List ℚ) (j : Nat)
    (hf : ∀ r ∈ rs, (f r).length = init.length) (hj : j < init.length) :
    (rs.foldl (fun fv r => vecSub fv (f r)) init).getD j 0
      = init.getD j 0 - ((rs.map (fun r => (f r).getD j 0)).sum) := by
  induction rs generalizing init with
  | nil => simp
  | cons r t ih =>
    simp only [List.foldl_cons, List.map_cons, List.sum_cons]
    have h1 : (vecSub init (f r)).length = init.length := by
      simp [length_vecSub, hf r (by simp)]
    rw [ih (vecSub init (f r))
      (fun x hx => by rw [h1]; exact hf x (List.mem_cons_of_mem r hx))
      (by rw [h1]; exact hj)]
    rw [getD_vecSub init (f r) j hj (by rw [hf r (by simp)]; exact hj)]
    ring

theorem fillVals_inner_length (rows : List CompRow) (iv : List ℚ) :
    ((rows.filter (fun r => r.role = Role.multiple)).foldl
      (fun fv r => vecSub fv (multVec iv r))
      (iv.map (fun x => 1 - x))).length = iv.length := by
  rw [foldl_vecSub_length]
  · simp
  · intro x _; simp [multVec]

theorem fillVals_length (rows : List CompRow) (iv : List ℚ) :
    (fillVals rows iv).length = iv.length := by
  unfold fillVals
  rw [foldl_vecSub_length, fillVals_inner_length]
  intro r _
  simp [fixedVec, fillVals_inner_length]

theorem fillVals_getD (rows : List CompRow) (iv : List ℚ) (j : Nat)
    (hj : j < iv.length) :
    (fillVals rows iv).getD j 0
      = 1 - iv.getD j 0
        - ((rows.filter (fun r => r.role = Role.multiple)).map
            (fun r => iv.getD j 0 * r.mult)).sum
        - ((rows.filter (fun r => r.role = Role.fixed)).map
            (fun r => r.start / 100)).sum := by
  unfold fillVals
  have hinit := fillVals_inner_length rows iv
  rw [foldl_vecSub_getD _ _ _ _ (fun r _ => by simp [fixedVec, hinit])
      (by rw [hinit]; exact hj)]
  rw [foldl_vecSub_getD _ _ _ _ (fun r _ => by simp [multVec])
      (by simpa using hj)]
  rw [getD_map_lt iv _ _ hj]
  have hfix : (rows.filter (fun r => r.role = Role.fixed)).map
      (fun r => (fixedVec iv.length r).getD j 0)
      = (rows.filter (fun r => r.role = Role.fixed)).map
        (fun r => r.start / 100) := by
    apply List.map_congr_left
    intro r _
    exact getD_replicate_lt iv.length (r.start / 100) j hj
  have hmul : (rows.filter (fun r => r.role = Role.multiple)).map
      (fun r => (multVec iv r).getD j 0)
      = (rows.filter (fun r => r.role = Role.multiple)).map
        (fun r => iv.getD j 0 * r.mult) := by
    apply List.map_congr_left
    intro r _
    exact getD_map_lt iv _ _ hj
  rw [hfix, hmul]

theorem countRole_cons (r : CompRow) (t : List CompRow) (ρ : Role) :
    countRole (r :: t) ρ = (if r.role = ρ then 1 else 0) + countRole t ρ := by
  by_cases h : r.role = ρ
  · simp [countRole, List.filter_cons, h, Nat.add_comm]
  · simp [countRole, List.filter_cons, h]

theorem filter_map_sum_cons (r : CompRow) (t : List CompRow) (ρ : Role)
    (f : CompRow → ℚ) :
    (((r :: t).filter (fun x => x.role = ρ)).map f).sum
      = (if r.role = ρ then f r else 0)
        + ((t.filter (fun x => x.role = ρ)).map f).sum := by
  by_cases h : r.role = ρ
  · simp [List.filter_cons, h]
  · simp [List.filter_cons, h]

theorem sum_chanVec_getD (rows : List CompRow) (iv fv : List ℚ) (j : Nat)
    (hj : j < iv.length)
    (hdash : ∀ r ∈ rows, r.role ≠ Role.dash) :
    ((rows.map (fun r => (chanVec iv fv r).getD j 0)).sum)
      = (countRole rows Role.indvar : ℚ) * iv.getD j 0
        + (countRole rows Role.fill : ℚ) * fv.getD j 0
        + ((rows.filter (fun r => r.role = Role.multiple)).map
            (fun r => iv.getD j 0 * r.mult)).sum
        + ((rows.filter (fun r => r.role = Role.fixed)).map
            (fun r => r.start / 100)).sum := by
  induction rows with
  | nil => simp [countRole]
  | cons r t ih =>
    have hdr : r.role ≠ Role.dash := hdash r (by simp)
    have iht := ih (fun x hx => hdash x (List.mem_cons_of_mem r hx))
    simp only [List.map_cons, List.sum_cons, iht, countRole_cons,
      filter_map_sum_cons]
    cases hrole : r.role with
    | dash => exact absurd hrole hdr
    | indvar =>
      have hhead : (chanVec iv fv r).getD j 0 = iv.getD j 0 := by
        simp [chanVec, hrole]
      rw [hhead]
      simp only [hrole]
      norm_num
      push_cast
      ring
    | fill =>
      have hhead : (chanVec iv fv r).getD j 0 = fv.getD j 0 := by
        simp [chanVec, hrole]
      rw [hhead]
      simp only [hrole]
      norm_num
      push_cast
      ring
    | multiple =>
      have hhead : (chanVec iv fv r).getD j 0 = iv.getD j 0 * r.mult := by
        simp only [chanVec, hrole, multVec]
        exact getD_map_lt iv _ _ hj
      rw [hhead]
      simp only [hrole]
      norm_num
      push_cast
      ring
    | fixed =>
      have hhead : (chanVec iv fv r).getD j 0 = r.start / 100 := by
        simp only [chanVec, hrole, fixedVec]
        exact getD_replicate_lt iv.length _ _ hj
      rw [hhead]
      simp only [hrole]
      norm_num
      push_cast
      ring

theorem mem_transposeM (cols : List (List ℚ)) (L : Nat) (row : List ℚ) :
    row ∈ transposeM cols L ↔
      ∃ j, j < L ∧ row = cols.map (fun c => c.getD j 0) := by
  simp only [transposeM, List.mem_map, List.mem_range]
  constructor
  · rintro ⟨j, hj, rfl⟩; exact ⟨j, hj, rfl⟩
  · rintro ⟨j, hj, rfl⟩; exact ⟨j, hj, rfl⟩

theorem update_ind_var_accepts (rows : List CompRow) (ivr : CompRow)
    (hdash : ∀ r ∈ rows, r.role ≠ Role.dash)
    (hfill : countRole rows Role.fill = 1)
    (hiv : countRole rows Role.indvar = 1)
    (hfind : rows.find? (fun r => r.role = Role.indvar) = some ivr)
    (hrange : ivr.stop + 1 > ivr.start ∧ ivr.step > 0)
    (hpos : ∀ x ∈ fillVals rows (indVarVals ivr), 0 ≤ x) :
    update_ind_var rows
      = some (transposeM
          (rows.map (chanVec (indVarVals ivr) (fillVals rows (indVarVals ivr))))
          (indVarVals ivr).length) := by
  have h1 : ¬ ∃ r ∈ rows, r.role = Role.dash := by
    push_neg; exact hdash
  have h2 : ¬(countRole rows Role.fill ≠ 1 ∨ countRole rows Role.indvar ≠ 1) := by
    push_neg; exact ⟨hfill, hiv⟩
  have h3 : ¬ ∃ x ∈ fillVals rows (indVarVals ivr), x < 0 := by
    push_neg; intro x hx; exact hpos x hx
  unfold update_ind_var
  rw [if_neg h1, if_neg h2, hfind]
  simp only [hrange, h3]
  simp [hrange]

theorem getD_map_lt' {α β : Type} (l : List α) (f : α → β) (j : Nat)
    (dA : α) (dB : β) (h : j < l.length) :
    (l.map f).getD j dB = f (l.getD j dA) := by
  induction l generalizing j with
  | nil => simp at h
  | cons a t ih =>
    cases j with
    | zero => simp
    | succ n =>
      simp only [List.map_cons, List.getD_cons_succ]
      exact ih n (by simpa using Nat.lt_of_succ_lt_succ h)

theorem getD_eq_get' {α : Type} (l : List α) (d : α) (k : Nat)
    (hk : k < l.length) :
    l.getD k d = l.get ⟨k, hk⟩ := by
  induction l generalizing k with
  | nil => simp at hk
  | cons a t ih =>
    cases k with
    | zero => simp
    | succ n =>
      simp only [List.getD_cons_succ]
      exact ih n (Nat.lt_of_succ_lt_succ hk)

theorem getD_range_lt (n j : Nat) (h : j < n) :
    (List.range n).getD j 0 = j := by
  rw [getD_eq_get' (List.range n) 0 j (by simpa using h)]
  simp

theorem transposeM_length (cols : List (List ℚ)) (L : Nat) :
    (transposeM cols L).length = L := by
  simp [transposeM]

theorem transposeM_getD (cols : List (List ℚ)) (L : Nat) (j : Nat)
    (hj : j < L) :
    (transposeM cols L).getD j [] = cols.map (fun c => c.getD j 0) := by
  unfold transposeM
  rw [getD_map_lt' (List.range L) _ j 0 [] (by simpa using hj),
    getD_range_lt L j hj]

theorem role_row_unique (rows : List CompRow) (ρ : Role)
    (h1 : countRole rows ρ = 1) (a b : CompRow)
    (ha : a ∈ rows) (hra : a.role = ρ) (hb : b ∈ rows) (hrb : b.role = ρ) :
    a = b := by
  have hfa : a ∈ rows.filter (fun r => r.role = ρ) :=
    List.mem_filter.mpr ⟨ha, by simp [hra]⟩
  have hfb : b ∈ rows.filter (fun r => r.role = ρ) :=
    List.mem_filter.mpr ⟨hb, by simp [hrb]⟩
  unfold countRole at h1
  obtain ⟨x, hx⟩ := List.length_eq_one.mp h1
  rw [hx] at hfa hfb
  simp only [List.mem_singleton] at hfa hfb
  rw [hfa, hfb]

theorem find_of_countRole (rows : List CompRow) (ρ : Role)
    (h : countRole rows ρ = 1) :
    ∃ r, rows.find? (fun x => x.role = ρ) = some r := by
  cases hf : rows.find? (fun x => x.role = ρ) with
  | some r => exact ⟨r, rfl⟩
  | none =>
    exfalso
    have hall := List.find?_eq_none.mp hf
    have hnil : rows.filter (fun x => x.role = ρ) = [] := by
      rw [List.filter_eq_nil_iff]
      intro a ha
      exact hall a ha
    unfold countRole at h
    rw [hnil] at h
    simp at h

theorem matrix_row_sum_one (rows : List CompRow) (ivr : CompRow)
    (hdash : ∀ r ∈ rows, r.role ≠ Role.dash)
    (hfill : countRole rows Role.fill = 1)
    (hiv : countRole rows Role.indvar = 1)
    (j : Nat) (hj : j < (indVarVals ivr).length) :
    ((rows.map (chanVec (indVarVals ivr) (fillVals rows (indVarVals ivr)))).map
        (fun c => c.getD j 0)).sum = 1 := by
  rw [List.map_map]
  have hcomp :
      ((fun c : List ℚ => c.getD j 0) ∘
        chanVec (indVarVals ivr) (fillVals rows (indVarVals ivr)))
      = fun r => (chanVec (indVarVals ivr) (fillVals rows (indVarVals ivr))
          r).getD j 0 := rfl
  rw [hcomp,
    sum_chanVec_getD rows (indVarVals ivr) (fillVals rows (indVarVals ivr))
      j hj hdash,
    hfill, hiv, fillVals_getD rows (indVarVals ivr) j hj]
  push_cast
  ring

/-- Inversion of a successful planner run: a stored matrix determines all the
guards and the shape of the matrix. -/
theorem update_ind_var_some_inv (rows : List CompRow) (M : List (List ℚ))
    (h : update_ind_var rows = some M) :
    (∀ r ∈ rows, r.role ≠ Role.dash) ∧
    countRole rows Role.fill = 1 ∧ countRole rows Role.indvar = 1 ∧
    ∃ ivr, rows.find? (fun r => r.role = Role.indvar) = some ivr ∧
      (ivr.stop + 1 > ivr.start ∧ ivr.step > 0) ∧
      (∀ x ∈ fillVals rows (indVarVals ivr), 0 ≤ x) ∧
      M = transposeM
        (rows.map (chanVec (indVarVals ivr) (fillVals rows (indVarVals ivr))))
        (indVarVals ivr).length := by
  unfold update_ind_var at h
  by_cases h1 : ∃ r ∈ rows, r.role = Role.dash
  · rw [if_pos h1] at h; exact absurd h (by simp)
  rw [if_neg h1] at h
  by_cases h2 : countRole rows Role.fill ≠ 1 ∨ countRole rows Role.indvar ≠ 1
  · rw [if_pos h2] at h; exact absurd h (by simp)
  rw [if_neg h2] at h
  push_neg at h1 h2
  cases hfind : rows.find? (fun r => r.role = Role.indvar) with
  | none => rw [hfind] at h; exact absurd h (by simp)
  | some ivr =>
    rw [hfind] at h
    dsimp only at h
    by_cases h3 : ivr.stop + 1 > ivr.start ∧ ivr.step > 0
    · by_cases h4 : ∃ x ∈ fillVals rows (indVarVals ivr), x < 0
      · rw [if_pos h3, if_pos h4] at h
        exact absurd h (by simp)
      · rw [if_pos h3, if_neg h4, Option.some.injEq] at h
        refine ⟨h1, h2.1, h2.2, ivr, rfl, h3, ?_, h.symm⟩
        intro x hx
        by_contra hneg
        exact h4 ⟨x, hx, by linarith⟩
    · rw [if_neg h3] at h; exact absurd h (by simp)

/-- C1: for every role assignment over the four gas rows that the
composition-sweep planner accepts (no row holds the dash role, exactly one
`Fill` row, exactly one `Ind. Variable` row with stop > start and step > 0,
and no negative fill value at any sweep index), every row of the composition
matrix stored on the experiment sums to 1 within 1e-9. -/
theorem comp_sweep_matrix_rows_sum_one (rows : List CompRow)
    (_hlen : rows.length = 4)
    (hdash : ∀ r ∈ rows, r.role ≠ Role.dash)
    (hfill : countRole rows Role.fill = 1)
    (hiv : countRole rows Role.indvar = 1)
    (hrange : ∀ r ∈ rows, r.role = Role.indvar → r.stop > r.start ∧ 0 < r.step)
    (hpos : ∀ ivr, rows.find? (fun r => r.role = Role.indvar) = some ivr →
        ∀ x ∈ fillVals rows (indVarVals ivr), 0 ≤ x) :
    ∃ M, update_ind_var rows = some M ∧
      ∀ mrow ∈ M, |mrow.sum - 1| ≤ 1 / 1000000000 := by
  obtain ⟨ivr, hfind⟩ := find_of_countRole rows Role.indvar hiv
  have hmem := List.mem_of_find?_eq_some hfind
  have hrole : ivr.role = Role.indvar := by
    have := List.find?_some hfind
    simpa using this
  have hr := hrange ivr hmem hrole
  have hrange2 : ivr.stop + 1 > ivr.start ∧ ivr.step > 0 :=
    ⟨by linarith [hr.1], hr.2⟩
  have hp := hpos ivr hfind
  refine ⟨_, update_ind_var_accepts rows ivr hdash hfill hiv hfind hrange2 hp,
    ?_⟩
  intro mrow hmrow
  rw [mem_transposeM] at hmrow
  obtain ⟨j, hjL, rfl⟩ := hmrow
  rw [matrix_row_sum_one rows ivr hdash hfill hiv j hjL]
  norm_num

/-- C2: whenever the computed fill vector is negative at any sweep index, the
planner rejects the whole sweep: `update_ind_var` stores nothing (it never
clamps and never stores a partial matrix). -/
theorem negative_fill_rejects (rows : List CompRow) (ivr : CompRow)
    (hfind : rows.find? (fun r => r.role = Role.indvar) = some ivr)
    (hneg : ∃ x ∈ fillVals rows (indVarVals ivr), x < 0) :
    update_ind_var rows = none := by
  unfold update_ind_var
  by_cases h1 : ∃ r ∈ rows, r.role = Role.dash
  · rw [if_pos h1]
  · rw [if_neg h1]
    by_cases h2 : countRole rows Role.fill ≠ 1 ∨ countRole rows Role.indvar ≠ 1
    · rw [if_pos h2]
    · rw [if_neg h2, hfind]
      dsimp only
      by_cases h3 : ivr.stop + 1 > ivr.start ∧ ivr.step > 0
      · rw [if_pos h3, if_pos hneg]
      · rw [if_neg h3]

theorem indVarVals_ex5 :
    indVarVals (⟨Role.indvar, 0, 20, 20, 5⟩ : CompRow) = [1/5] := by
  unfold indVarVals arange
  have hc : ⌈(((20:ℚ) + 1) - 20) / 5⌉ = 1 := by
    rw [Int.ceil_eq_iff] <;> norm_num
  dsimp only
  rw [hc, show Int.toNat 1 = 1 from rfl, show List.range 1 = [0] from rfl]
  norm_num

theorem fillVals_ex5 : fillVals ex5rows [1/5] = [4/5] := by
  have hm : ex5rows.filter (fun r => r.role = Role.multiple) = [] := rfl
  have hf : ex5rows.filter (fun r => r.role = Role.fixed)
      = [⟨Role.fixed, 0, 0, 0, 0⟩, ⟨Role.fixed, 0, 0, 0, 0⟩] := rfl
  unfold fillVals
  rw [hm, hf]
  simp only [List.foldl_nil, List.foldl_cons]
  norm_num [vecSub, fixedVec]

/-- C5 counterexample: the assignment `ex5rows` has stop = start on its
`Ind. Variable` row, so by the claim it must be rejected; the planner instead
accepts it and stores the one-step matrix [[1/5, 4/5, 0, 0]]. -/
theorem update_ind_var_stop_eq_start_accepted :
    update_ind_var ex5rows = some [[1/5, 4/5, 0, 0]] := by
  have hfind : ex5rows.find? (fun r => r.role = Role.indvar)
      = some ⟨Role.indvar, 0, 20, 20, 5⟩ := rfl
  rw [update_ind_var_accepts ex5rows ⟨Role.indvar, 0, 20, 20, 5⟩
    (by decide) (by decide) (by decide) hfind
    (by constructor <;> norm_num)
    (by rw [indVarVals_ex5, fillVals_ex5]; intro x hx; simp at hx
        rw [hx]; norm_num)]
  rw [indVarVals_ex5, fillVals_ex5]
  unfold transposeM ex5rows
  rw [show List.range (List.length [(1:ℚ)/5]) = [0] from rfl]
  norm_num [chanVec, fixedVec]

/-- C5 (amended): when the planner stores a matrix, the independent-variable
channel's column equals `arange(start, stop + 1, step) / 100` (the source adds
1, not `step`, to the stop spin-box value), the fill channel's column is
`1 - ind_var` minus the Multiple and Fixed contributions, and an assignment
holding an `Ind. Variable` row with `step ≤ 0` or `stop + 1 ≤ start` is
rejected. -/
theorem update_ind_var_entries :
    (∀ (rows : List CompRow) (k : Nat) (hk : k < rows.length)
       (M : List (List ℚ)) (j : Nat),
       (rows.get ⟨k, hk⟩).role = Role.indvar →
       update_ind_var rows = some M → j < M.length →
       (M.getD j []).getD k 0
         = ((arange (rows.get ⟨k, hk⟩).start ((rows.get ⟨k, hk⟩).stop + 1)
             (rows.get ⟨k, hk⟩).step).map (fun x => x / 100)).getD j 0)
    ∧ (∀ (rows : List CompRow) (k : Nat) (hk : k < rows.length)
       (M : List (List ℚ)) (j : Nat) (ivr : CompRow),
       (rows.get ⟨k, hk⟩).role = Role.fill →
       update_ind_var rows = some M → j < M.length →
       rows.find? (fun r => r.role = Role.indvar) = some ivr →
       (M.getD j []).getD k 0
         = 1 - (indVarVals ivr).getD j 0
           - ((rows.filter (fun r => r.role = Role.multiple)).map
               (fun r => (indVarVals ivr).getD j 0 * r.mult)).sum
           - ((rows.filter (fun r => r.role = Role.fixed)).map
               (fun r => r.start / 100)).sum)
    ∧ (∀ (rows : List CompRow) (r : CompRow), r ∈ rows →
       r.role = Role.indvar → (r.step ≤ 0 ∨ r.stop + 1 ≤ r.start) →
       update_ind_var rows = none) := by
  refine ⟨?_, ?_, ?_⟩
  · intro rows k hk M j hrole hM hj
    obtain ⟨hdash, hfill, hiv, ivr, hfind, hrange, hpos, hMeq⟩ :=
      update_ind_var_some_inv rows M hM
    have hivr_role : ivr.role = Role.indvar := by
      have := List.find?_some hfind
      simpa using this
    have hget_eq : rows.get ⟨k, hk⟩ = ivr :=
      role_row_unique rows Role.indvar hiv _ ivr (List.get_mem rows k hk)
        hrole (List.mem_of_find?_eq_some hfind) hivr_role
    have hjL : j < (indVarVals ivr).length := by
      rw [hMeq, transposeM_length] at hj
      exact hj
    rw [hMeq, transposeM_getD _ _ j hjL, List.map_map]
    rw [getD_map_lt' rows _ k (rows.get ⟨k, hk⟩) 0 hk,
      getD_eq_get' rows _ k hk, hget_eq]
    simp only [Function.comp_apply]
    simp [chanVec, hivr_role, indVarVals]
  · intro rows k hk M j ivr hrole hM hj hfind2
    obtain ⟨hdash, hfill, hiv, ivr', hfind, hrange, hpos, hMeq⟩ :=
      update_ind_var_some_inv rows M hM
    have hivr_eq : ivr' = ivr := by
      rw [hfind2] at hfind
      exact (Option.some_inj.mp hfind).symm
    rw [hivr_eq] at hMeq
    have hjL : j < (indVarVals ivr).length := by
      rw [hMeq, transposeM_length] at hj
      exact hj
    rw [hMeq, transposeM_getD _ _ j hjL, List.map_map]
    rw [getD_map_lt' rows _ k (rows.get ⟨k, hk⟩) 0 hk,
      getD_eq_get' rows _ k hk]
    simp only [Function.comp_apply]
    simp only [chanVec]
    rw [hrole]
    dsimp only
    rw [fillVals_getD rows (indVarVals ivr) j hjL]
  · intro rows r hr hrole hbad
    unfold update_ind_var
    by_cases h1 : ∃ x ∈ rows, x.role = Role.dash
    · rw [if_pos h1]
    · rw [if_neg h1]
      by_cases h2 : countRole rows Role.fill ≠ 1 ∨
          countRole rows Role.indvar ≠ 1
      · rw [if_pos h2]
      · rw [if_neg h2]
        push_neg at h2
        obtain ⟨ivr, hfind⟩ := find_of_countRole rows Role.indvar h2.2
        have hivr_role : ivr.role = Role.indvar := by
          have := List.find?_some hfind
          simpa using this
        have heq : ivr = r :=
          role_row_unique rows Role.indvar h2.2 ivr r
            (List.mem_of_find?_eq_some hfind) hivr_role hr hrole
        rw [hfind]
        dsimp only
        have hcond : ¬(ivr.stop + 1 > ivr.start ∧ ivr.step > 0) := by
          rw [heq]
          rintro ⟨hA, hB⟩
          rcases hbad with hb | hb
          · linarith
          · linarith
        rw [if_neg hcond]

theorem indVarVals_ex1 :
    indVarVals (⟨Role.indvar, 0, 10, 30, 10⟩ : CompRow)
      = [1/10, 1/5, 3/10] := by
  unfold indVarVals arange
  have hc : ⌈(((30:ℚ) + 1) - 10) / 10⌉ = 3 := by
    rw [Int.ceil_eq_iff] <;> norm_num
  dsimp only
  rw [hc, show Int.toNat 3 = 3 from rfl, show List.range 3 = [0, 1, 2] from rfl]
  norm_num

theorem fillVals_ex1 :
    fillVals ex1rows [1/10, 1/5, 3/10] = [7/10, 3/5, 1/2] := by
  have hm : ex1rows.filter (fun r => r.role = Role.multiple) = [] := rfl
  have hf : ex1rows.filter (fun r => r.role = Role.fixed)
      = [⟨Role.fixed, 0, 20, 0, 0⟩, ⟨Role.fixed, 0, 0, 0, 0⟩] := rfl
  unfold fillVals
  rw [hm, hf]
  simp only [List.foldl_nil, List.foldl_cons]
  norm_num [vecSub, fixedVec, List.replicate_succ]

theorem update_ind_var_ex1 :
    update_ind_var ex1rows
      = some [[1/10, 7/10, 1/5, 0], [1/5, 3/5, 1/5, 0],
              [3/10, 1/2, 1/5, 0]] := by
  have hfind : ex1rows.find? (fun r => r.role = Role.indvar)
      = some ⟨Role.indvar, 0, 10, 30, 10⟩ := rfl
  rw [update_ind_var_accepts ex1rows ⟨Role.indvar, 0, 10, 30, 10⟩
    (by decide) (by decide) (by decide) hfind
    (by constructor <;> norm_num)
    (by rw [indVarVals_ex1, fillVals_ex1]; intro x hx; simp at hx
        rcases hx with rfl | rfl | rfl <;> norm_num)]
  rw [indVarVals_ex1, fillVals_ex1]
  unfold transposeM ex1rows
  rw [show List.range (List.length [(1:ℚ)/10, 1/5, 3/10]) = [0, 1, 2] from rfl]
  norm_num [chanVec, fixedVec, List.replicate_succ]

/-- Witness for C1 at the concrete assignment `ex1rows`. -/
theorem comp_sweep_matrix_rows_sum_one_witness :
    ∃ M, update_ind_var ex1rows = some M ∧
      ∀ mrow ∈ M, |mrow.sum - 1| ≤ 1 / 1000000000 :=
  comp_sweep_matrix_rows_sum_one ex1rows rfl (by decide) (by decide)
    (by decide)
    (by
      intro r hr hrole
      simp only [ex1rows, List.mem_cons, List.not_mem_nil, or_false] at hr
      rcases hr with rfl | rfl | rfl | rfl
      · exact ⟨by norm_num, by norm_num⟩
      · simp at hrole
      · simp at hrole
      · simp at hrole)
    (by
      intro ivr hfind x hx
      have hfr : ex1rows.find? (fun r => r.role = Role.indvar)
          = some ⟨Role.indvar, 0, 10, 30, 10⟩ := rfl
      rw [hfr] at hfind
      have hivr : ivr = ⟨Role.indvar, 0, 10, 30, 10⟩ :=
        (Option.some_inj.mp hfind).symm
      rw [hivr, indVarVals_ex1, fillVals_ex1] at hx
      simp at hx
      rcases hx with rfl | rfl | rfl <;> norm_num)

theorem indVarVals_ex2 :
    indVarVals (⟨Role.indvar, 0, 60, 80, 20⟩ : CompRow) = [3/5, 4/5] := by
  unfold indVarVals arange
  have hc : ⌈(((80:ℚ) + 1) - 60) / 20⌉ = 2 := by
    rw [Int.ceil_eq_iff] <;> norm_num
  dsimp only
  rw [hc, show Int.toNat 2 = 2 from rfl, show List.range 2 = [0, 1] from rfl]
  norm_num

theorem fillVals_ex2 :
    fillVals ex2rows [3/5, 4/5] = [-(1/10), -(3/10)] := by
  have hm : ex2rows.filter (fun r => r.role = Role.multiple) = [] := rfl
  have hf : ex2rows.filter (fun r => r.role = Role.fixed)
      = [⟨Role.fixed, 0, 50, 0, 0⟩, ⟨Role.fixed, 0, 0, 0, 0⟩] := rfl
  unfold fillVals
  rw [hm, hf]
  simp only [List.foldl_nil, List.foldl_cons]
  norm_num [vecSub, fixedVec, List.replicate_succ]

/-- Witness for C2 at the concrete assignment `ex2rows`. -/
theorem negative_fill_rejects_witness : update_ind_var ex2rows = none :=
  negative_fill_rejects ex2rows ⟨Role.indvar, 0, 60, 80, 20⟩ rfl
    (by
      rw [indVarVals_ex2, fillVals_ex2]
      exact ⟨-(1/10), by simp, by norm_num⟩)

/-- Witness for the amended C5 at the concrete assignments `ex1rows` and
`ex5badrows`. -/
theorem update_ind_var_entries_witness :
    (([[(1:ℚ)/10, 7/10, 1/5, 0], [1/5, 3/5, 1/5, 0],
       [3/10, 1/2, 1/5, 0]].getD 0 []).getD 0 0
      = ((arange ((ex1rows.get ⟨0, by decide⟩).start)
          ((ex1rows.get ⟨0, by decide⟩).stop + 1)
          ((ex1rows.get ⟨0, by decide⟩).step)).map
            (fun x => x / 100)).getD 0 0)
    ∧ (([[(1:ℚ)/10, 7/10, 1/5, 0], [1/5, 3/5, 1/5, 0],
       [3/10, 1/2, 1/5, 0]].getD 0 []).getD 1 0
      = 1 - (indVarVals ⟨Role.indvar, 0, 10, 30, 10⟩).getD 0 0
        - ((ex1rows.filter (fun r => r.role = Role.multiple)).map
            (fun r => (indVarVals ⟨Role.indvar, 0, 10, 30, 10⟩).getD 0 0
              * r.mult)).sum
        - ((ex1rows.filter (fun r => r.role = Role.fixed)).map
            (fun r => r.start / 100)).sum)
    ∧ update_ind_var ex5badrows = none := by
  refine ⟨?_, ?_, ?_⟩
  · exact update_ind_var_entries.1 ex1rows 0 (by decide) _ 0 rfl
      update_ind_var_ex1 (by decide)
  · exact update_ind_var_entries.2.1 ex1rows 1 (by decide) _ 0
      ⟨Role.indvar, 0, 10, 30, 10⟩ rfl update_ind_var_ex1 (by decide) rfl
  · exact update_ind_var_entries.2.2 ex5badrows ⟨Role.indvar, 0, 20, 10, 5⟩
      (List.mem_cons_self _ _) rfl (Or.inr (by norm_num))

end CatalightGUI

namespace GCAnalysis

/-- C7: evaluation at the failing input. A singular regression
(`LinAlgError`) for the second chemical does NOT exclude it from the written
calibration table: its row receives the previous chemical's slope/intercept
values, because the table write sits outside the try/except. And when the
first chemical's regression is singular, the whole calibration aborts with
`NameError` (the fit variables are still undefined), so the failure is not
recoverable at all. -/
theorem analyze_cal_singular_not_excluded :
    analyze_cal_data [("c2h2", some ⟨2, 5, 1/10, 1/10⟩), ("c2h4", none)]
      = ([("c2h2", ⟨2, 5, 1/10, 1/10⟩), ("c2h4", ⟨2, 5, 1/10, 1/10⟩)], none)
    ∧ analyze_cal_data [("c2h2", none), ("c2h4", some ⟨2, 5, 1/10, 1/10⟩)]
      = ([], some PyErr.nameError) := by
  constructor
  · rfl
  · rfl

end GCAnalysis
